import Mathlib

/-!
Verification of the deployment state machine and cost-optimization control
loop of the ai-deploy-platform repository.

The definitions below are a shallow embedding of the Python sources:
  * `src/core/models.py` — the data model (`Deployment` and its parts);
  * `src/core/deployment.py` — the `DeploymentService` state machine
    (`deploy_model`, `update_deployment`, `delete_deployment`,
    `hibernate_deployment`, `activate_deployment`);
  * `src/optimization/cost_optimizer.py` — the `CostOptimizer` checks;
  * `src/optimization/multi_cloud.py` — the price tracker and arbitrage;
  * `src/optimization/storage_tiering.py` — the access-pattern classifier.

Modelling conventions:
  * timestamps (`datetime.utcnow()`) are integers counting seconds; each
    operation takes the clock values it reads as explicit arguments;
  * cpu/memory/gpu quantities and prices (Python floats, parsed from the
    stored strings with `float(...)` / `rstrip("Gi")`) are rationals;
  * the JSON file store keyed by deployment id is an association list;
  * calls into the substrate drivers (`kubernetes_deployer` /
    `serverless_deployer`) are modelled by an explicit `Except String Unit`
    (or `Except String String` for `deploy`, which returns the endpoint)
    argument giving the call's outcome; the randomized placeholder metric
    and price sources are likewise explicit arguments.
-/

namespace AIDeploy

/-- Deployment statuses, from `DeploymentStatus` in `core/models.py`. -/
inductive DeploymentStatus
  | pending
  | deploying
  | active
  | scaling
  | hibernated
  | failed
  | terminating
  | terminated
deriving DecidableEq, Repr

/-- Deployment types (execution venues), from `DeploymentType` in
`core/models.py`. -/
inductive DeploymentType
  | serverless
  | kubernetes
  | edge
deriving DecidableEq, Repr

/-- A value stored in a deployment's free-form metadata dict. -/
inductive MetaVal
  | str (s : String)
  | boolV (b : Bool)
  | num (q : ℚ)
deriving DecidableEq, Repr

/-- The free-form metadata dict of a deployment, as an association list in
insertion order (Python `dict` preserves insertion order). -/
abbrev Metadata := List (String × MetaVal)

/-- `metadata.get(k)` — first binding of `k`, if any. -/
def metaGet (m : Metadata) (k : String) : Option MetaVal :=
  (m.find? (fun p => p.1 = k)).map (fun p => p.2)

/-- `metadata[k] = v` — overwrite the binding of `k` in place, or append a
new one, exactly as Python dict assignment does. -/
def metaSet : Metadata → String → MetaVal → Metadata
  | [], k, v => [(k, v)]
  | p :: rest, k, v => if p.1 = k then (k, v) :: rest else p :: metaSet rest k v

/-- `d.update(new)` on Python dicts: assign every binding of `new` into `d`
in order. -/
def metaUpdate (m new : Metadata) : Metadata :=
  new.foldl (fun acc p => metaSet acc p.1 p.2) m

/-- `metadata.get(k, default)` where the stored value is a string
(`cloud_provider` / `cloud_region` lookups in the optimizer). -/
def metaGetStr (m : Metadata) (k dflt : String) : String :=
  match metaGet m k with
  | some (MetaVal.str s) => s
  | _ => dflt

/-- `metadata.get(k, False)` used as a boolean (Python truthiness; a missing
key is falsy, a stored boolean is itself, any other stored value in this
code base is a non-empty string or non-zero number, i.e. truthy). -/
def metaTruthy (m : Metadata) (k : String) : Bool :=
  match metaGet m k with
  | some (MetaVal.boolV b) => b
  | some _ => true
  | none => false

/-- Resource requirements, from `ResourceRequirements` in `core/models.py`;
`cpu` and `memory` are the float values the optimizer reads
(`float(rr.cpu)`, `float(rr.memory.rstrip("Gi"))`). -/
structure ResourceRequirements where
  cpu : ℚ
  memory : ℚ
  gpu : Option ℚ
  timeout : ℤ
deriving DecidableEq, Repr

/-- Scaling policy, from `ScalingPolicy` in `core/models.py`. -/
structure ScalingPolicy where
  min_instances : ℤ
  max_instances : ℤ
  target_cpu_utilization : ℤ
  scale_to_zero_delay : ℤ
deriving DecidableEq, Repr

/-- Cost-optimization policy; fields as read by `core/deployment.py`
(`hibernation_enabled`), `optimization/cost_optimizer.py`
(`use_spot_instances`, `hibernation_idle_timeout`, `multi_cloud_enabled`)
and the API layer defaults. -/
structure CostOptimizationPolicy where
  use_spot_instances : Bool
  hibernation_enabled : Bool
  hibernation_idle_timeout : ℤ
  multi_cloud_enabled : Bool
  storage_tiering : Bool
deriving DecidableEq, Repr

/-- A deployment record, from `Deployment` in `core/models.py`.
`last_active_at` is optional because the optimizer guards its read with
`deployment.last_active_at or deployment.created_at`; the constructor
initializes it to the creation time. -/
structure Deployment where
  id : String
  name : String
  model_id : String
  deployment_type : DeploymentType
  resource_requirements : ResourceRequirements
  scaling_policy : ScalingPolicy
  cost_optimization_policy : CostOptimizationPolicy
  metadata : Metadata
  status : DeploymentStatus
  endpoint : Option String
  created_at : ℤ
  updated_at : ℤ
  last_active_at : Option ℤ
deriving DecidableEq, Repr

/-- `Deployment.__init__`: a fresh record is `pending`, has no endpoint and
carries the creation time in all three timestamps (`core/models.py`,
lines 284–297). -/
def mkDeployment (id name model_id : String) (ty : DeploymentType)
    (rr : ResourceRequirements) (sp : ScalingPolicy)
    (cop : CostOptimizationPolicy) (md : Metadata) (now : ℤ) : Deployment :=
  { id := id
    name := name
    model_id := model_id
    deployment_type := ty
    resource_requirements := rr
    scaling_policy := sp
    cost_optimization_policy := cop
    metadata := md
    status := DeploymentStatus.pending
    endpoint := none
    created_at := now
    updated_at := now
    last_active_at := some now }

/-- The persisted deployment records (one JSON file per id under
`deployments/`), as an association list keyed by id. -/
abbrev Store := List (String × Deployment)

/-- `get_deployment`: read the record with the given id, if present. -/
def storeGet : Store → String → Option Deployment
  | [], _ => none
  | p :: rest, id => if p.1 = id then some p.2 else storeGet rest id

/-- `_save_deployment`: write the record under its id (overwrite the
existing file or create a new one). -/
def storePut : Store → Deployment → Store
  | [], d => [(d.id, d)]
  | p :: rest, d => if p.1 = d.id then (d.id, d) :: rest else p :: storePut rest d

/-- `os.remove` of the record's file. -/
def storeDelete : Store → String → Store
  | [], _ => []
  | p :: rest, id => if p.1 = id then rest else p :: storeDelete rest id

/-- Dispatch on the deployment type around the substrate-driver call:
`kubernetes` and `serverless` invoke the corresponding deployer (whose
outcome is the `prov` argument); any other type raises
`ValueError("Unsupported deployment type: ...")`, which the surrounding
`except` treats like any other failure. -/
def provOutcome (ty : DeploymentType) (prov : Except String Unit) : Except String Unit :=
  match ty with
  | DeploymentType.edge => Except.error ("Unsupported deployment type")
  | _ => prov

/-- Same dispatch for `deploy`, whose driver call returns the endpoint. -/
def provDeployOutcome (ty : DeploymentType) (prov : Except String String) :
    Except String String :=
  match ty with
  | DeploymentType.edge => Except.error ("Unsupported deployment type")
  | _ => prov

/-- Mark a record failed with the error text captured in metadata — the
shared `except` branch of every state-machine operation. -/
def failRecord (d : Deployment) (e : String) (t : ℤ) : Deployment :=
  { d with status := DeploymentStatus.failed
           metadata := metaSet d.metadata ("error") (MetaVal.str e)
           updated_at := t }

/-- `DeploymentService.deploy_model` (`core/deployment.py`, lines 50–122):
create the record, save it in `deploying` status, dispatch on the venue; on
success set the endpoint, move to `active`, stamp `updated_at` and save; on
any failure (including an unsupported type) move to `failed`, capture the
error in metadata, save, and re-raise. `t0` is the creation time, `t1` the
post-call stamp. -/
def deploy_model (s : Store) (id name model_id : String) (ty : DeploymentType)
    (rr : ResourceRequirements) (sp : ScalingPolicy)
    (cop : CostOptimizationPolicy) (md : Metadata)
    (prov : Except String String) (t0 t1 : ℤ) :
    Except String Deployment × Store :=
  let d := mkDeployment id name model_id ty rr sp cop md t0
  let d1 := { d with status := DeploymentStatus.deploying }
  let s1 := storePut s d1
  match provDeployOutcome ty prov with
  | Except.ok endpoint =>
      let d2 := { d1 with endpoint := some endpoint
                          status := DeploymentStatus.active
                          updated_at := t1 }
      (Except.ok d2, storePut s1 d2)
  | Except.error e =>
      let d2 := failRecord d1 e t1
      (Except.error e, storePut s1 d2)

/-- The in-memory merge phase of `update_deployment` (lines 221–237): each
provided field replaces the stored one, a provided metadata dict is merged
with `dict.update` (an empty dict, like `None`, is falsy and skipped), then
the status moves to `scaling` and `updated_at` is stamped. -/
def updateMerge (d : Deployment) (rr : Option ResourceRequirements)
    (sp : Option ScalingPolicy) (cop : Option CostOptimizationPolicy)
    (md : Metadata) (t1 : ℤ) : Deployment :=
  let d := match rr with
    | some r => { d with resource_requirements := r }
    | none => d
  let d := match sp with
    | some p => { d with scaling_policy := p }
    | none => d
  let d := match cop with
    | some c => { d with cost_optimization_policy := c }
    | none => d
  let d := if md.isEmpty then d else { d with metadata := metaUpdate d.metadata md }
  { d with status := DeploymentStatus.scaling, updated_at := t1 }

/-- `DeploymentService.update_deployment` (lines 197–265): `None` for an
unknown id; otherwise merge the provided fields, save in `scaling`, invoke
the driver's `update`; on success save in `active`, on failure save in
`failed` with the error captured and re-raise. -/
def update_deployment (s : Store) (id : String)
    (rr : Option ResourceRequirements) (sp : Option ScalingPolicy)
    (cop : Option CostOptimizationPolicy) (md : Metadata)
    (prov : Except String Unit) (t1 t2 : ℤ) :
    Except String (Option Deployment) × Store :=
  match storeGet s id with
  | none => (Except.ok none, s)
  | some d =>
      let d1 := updateMerge d rr sp cop md t1
      let s1 := storePut s d1
      match provOutcome d1.deployment_type prov with
      | Except.ok _ =>
          let d2 := { d1 with status := DeploymentStatus.active, updated_at := t2 }
          (Except.ok (some d2), storePut s1 d2)
      | Except.error e =>
          let d2 := failRecord d1 e t2
          (Except.error e, storePut s1 d2)

/-- `DeploymentService.delete_deployment` (lines 267–310): `False` for an
unknown id; otherwise save in `terminating` (no timestamp change), invoke
the driver's `delete`; on success remove the record, on failure save in
`failed` and re-raise. -/
def delete_deployment (s : Store) (id : String) (prov : Except String Unit)
    (t2 : ℤ) : Except String Bool × Store :=
  match storeGet s id with
  | none => (Except.ok false, s)
  | some d =>
      let d1 := { d with status := DeploymentStatus.terminating }
      let s1 := storePut s d1
      match provOutcome d1.deployment_type prov with
      | Except.ok _ => (Except.ok true, storeDelete s1 id)
      | Except.error e =>
          let d2 := failRecord d1 e t2
          (Except.error e, storePut s1 d2)

/-- `DeploymentService.hibernate_deployment` (lines 312–356): `None` for an
unknown id; if the cost policy's hibernation flag is off, log and return the
record unchanged (nothing saved). Otherwise — with no check of the current
status — save in `hibernated` with `updated_at` stamped, invoke the driver's
`hibernate`; on success return the hibernated record, on failure save in
`failed` and re-raise. -/
def hibernate_deployment (s : Store) (id : String) (prov : Except String Unit)
    (t1 t2 : ℤ) : Except String (Option Deployment) × Store :=
  match storeGet s id with
  | none => (Except.ok none, s)
  | some d =>
      if d.cost_optimization_policy.hibernation_enabled = false then
        (Except.ok (some d), s)
      else
        let d1 := { d with status := DeploymentStatus.hibernated, updated_at := t1 }
        let s1 := storePut s d1
        match provOutcome d1.deployment_type prov with
        | Except.ok _ => (Except.ok (some d1), s1)
        | Except.error e =>
            let d2 := failRecord d1 e t2
            (Except.error e, storePut s1 d2)

/-- `DeploymentService.activate_deployment` (lines 358–408): `None` for an
unknown id; a record that is not `hibernated` is returned unchanged.
Otherwise save in `deploying`, invoke the driver's `activate`; on success
save in `active` with `updated_at` and `last_active_at` refreshed, on
failure save in `failed` and re-raise. -/
def activate_deployment (s : Store) (id : String) (prov : Except String Unit)
    (t1 t2 : ℤ) : Except String (Option Deployment) × Store :=
  match storeGet s id with
  | none => (Except.ok none, s)
  | some d =>
      if d.status ≠ DeploymentStatus.hibernated then
        (Except.ok (some d), s)
      else
        let d1 := { d with status := DeploymentStatus.deploying, updated_at := t1 }
        let s1 := storePut s d1
        match provOutcome d1.deployment_type prov with
        | Except.ok _ =>
            let d2 := { d1 with status := DeploymentStatus.active
                                updated_at := t2
                                last_active_at := some t2 }
            (Except.ok (some d2), storePut s1 d2)
        | Except.error e =>
            let d2 := failRecord d1 e t2
            (Except.error e, storePut s1 d2)

/-! ### Multi-cloud price tracker (`optimization/multi_cloud.py`) -/

/-- Per-region unit prices of one provider (`price_tracking.json` entries). -/
structure RegionPrice where
  region : String
  cpu : ℚ
  memory : ℚ
  gpu : ℚ
deriving DecidableEq, Repr

/-- One provider's price table: its name and its region price list, in the
table's iteration order. -/
structure ProviderTable where
  provider : String
  regions : List RegionPrice
deriving DecidableEq, Repr

/-- The resource shape priced by the tracker: the deployment's cpu, memory
and gpu quantities (a missing gpu prices as 0, `_get_pricing_data`
lines 349–353). -/
structure ResourceShape where
  cpu : ℚ
  memory : ℚ
  gpu : ℚ
deriving DecidableEq, Repr

/-- The resource shape of a deployment as `_get_pricing_data` computes it. -/
def Deployment.shape (d : Deployment) : ResourceShape :=
  { cpu := d.resource_requirements.cpu
    memory := d.resource_requirements.memory
    gpu := (d.resource_requirements.gpu).getD 0 }

/-- The total price of a shape in one region:
`cpu*cpu_price + memory*memory_price + gpu*gpu_price`. -/
def regionTotal (sh : ResourceShape) (rp : RegionPrice) : ℚ :=
  sh.cpu * rp.cpu + sh.memory * rp.memory + sh.gpu * rp.gpu

/-- The loop of `_get_pricing_data` (lines 360–375): starting from
`cheapest_price = inf`, keep the first region whose total is strictly below
the best so far. The accumulator is the best region seen so far. -/
def cheapestRegionFold (sh : ResourceShape) : RegionPrice → List RegionPrice → RegionPrice
  | best, [] => best
  | best, rp :: rest =>
      cheapestRegionFold sh (if regionTotal sh rp < regionTotal sh best then rp else best) rest

/-- The cheapest region of one provider and its price; `none` models an
empty region table (in which case the Python lookup of the `None` region
would fail). -/
def cheapestRegion (sh : ResourceShape) : List RegionPrice → Option (String × ℚ)
  | [] => none
  | rp :: rest =>
      let best := cheapestRegionFold sh rp rest
      some (best.region, regionTotal sh best)

/-- A per-provider quote produced by `_get_pricing_data`: the provider, the
region achieving its minimum and that minimal price. -/
structure ProviderQuote where
  provider : String
  region : String
  price : ℚ
deriving DecidableEq, Repr

/-- `_get_pricing_data` (lines 336–383): for each provider, the cheapest
region and its total price for the deployment's shape, keeping the
providers' iteration order; `none` if some provider has no regions. -/
def getPricingData (sh : ResourceShape) : List ProviderTable → Option (List ProviderQuote)
  | [] => some []
  | t :: ts =>
      match cheapestRegion sh t.regions, getPricingData sh ts with
      | some rq, some rest =>
          some ({ provider := t.provider, region := rq.1, price := rq.2 } :: rest)
      | _, _ => none

/-- `min(pricing_data, key=lambda x: pricing_data[x]["price"])`: the first
quote of minimal price, `none` on an empty dict (where Python `min`
raises). -/
def argminQuote : List ProviderQuote → Option ProviderQuote
  | [] => none
  | q :: qs =>
      some (qs.foldl (fun best x => if x.price < best.price then x else best) q)

/-- `pricing_data[provider]` lookup. -/
def findQuote (pricing : List ProviderQuote) (p : String) : Option ProviderQuote :=
  pricing.find? (fun q => q.provider = p)

/-! ### Cost optimizer (`optimization/cost_optimizer.py`) -/

/-- The outcome entry one optimizer check writes into the per-deployment
results dict (`status` tag plus the numeric evidence the claims need). -/
inductive Outcome
  | skipped (reason : String)
  | hibernatedOut (idleSeconds : ℤ) (estimatedSavings : ℚ)
  | stillActive (idleSeconds : ℤ) (threshold : ℤ)
  | alreadyOptimized
  | converted (spotPrice onDemandPrice savingsPct : ℚ)
  | notBeneficial
  | resized (newCpu newMemory : ℚ)
  | optimal
  | migrated (toProvider toRegion : String) (savingsPct : ℚ)
  | arbitrageOpportunity (provider region : String) (savingsPct : ℚ)
  | savingsInsufficient (savingsPct : ℚ)
  | errorOut (msg : String)
deriving DecidableEq, Repr

/-- `_estimate_hibernation_savings`: the Kubernetes branch (lines 360–368)
prices cpu at 30, memory at 5 and gpu at 300 dollars per unit-month.
Modelled from the spec: the serverless branch of this function is cut off
in the packed source; per the spec it is the same linear model with lower
per-unit rates (function capacity is billed per invocation), taken here as
half the cluster rates. No claim depends on its value. -/
def estimateHibernationSavings (d : Deployment) : ℚ :=
  match d.deployment_type with
  | DeploymentType.kubernetes =>
      d.resource_requirements.cpu * 30 + d.resource_requirements.memory * 5 +
        (match d.resource_requirements.gpu with
         | some g => g * 300
         | none => 0)
  | _ =>
      d.resource_requirements.cpu * 15 + d.resource_requirements.memory * (5 / 2) +
        (match d.resource_requirements.gpu with
         | some g => g * 150
         | none => 0)

/-- `_check_hibernation` (lines 118–153): skip if the policy flag is off;
compute `idle = now - (last_active_at or created_at)`; if idle exceeds the
policy timeout, hibernate through the deployment service (a driver failure
becomes an `error` outcome); otherwise report the idle time and threshold. -/
def checkHibernation (s : Store) (d : Deployment) (now : ℤ)
    (prov : Except String Unit) (t1 t2 : ℤ) : Outcome × Store :=
  if d.cost_optimization_policy.hibernation_enabled = false then
    (Outcome.skipped ("Hibernation not enabled"), s)
  else
    let lastActive := d.last_active_at.getD d.created_at
    let idle := now - lastActive
    if d.cost_optimization_policy.hibernation_idle_timeout < idle then
      match hibernate_deployment s d.id prov t1 t2 with
      | (Except.ok _, s1) =>
          (Outcome.hibernatedOut idle (estimateHibernationSavings d), s1)
      | (Except.error e, s1) => (Outcome.errorOut e, s1)
    else
      (Outcome.stillActive idle d.cost_optimization_policy.hibernation_idle_timeout, s)

/-- `_check_spot_instances` (lines 155–210): skip if the policy flag is off
or the venue is serverless; report `already_optimized` if the metadata flag
is already set; if a strictly cheaper spot price is available, set the
metadata flags through `update_deployment` (a driver failure becomes an
`error` outcome) and report the savings percentage; otherwise report
`not_beneficial`. -/
def checkSpotInstances (s : Store) (d : Deployment) (spotAvailable : Bool)
    (spotPrice onDemandPrice : ℚ) (prov : Except String Unit) (t1 t2 : ℤ) :
    Outcome × Store :=
  if d.cost_optimization_policy.use_spot_instances = false then
    (Outcome.skipped ("Spot instances not enabled"), s)
  else if d.deployment_type = DeploymentType.serverless then
    (Outcome.skipped ("Not applicable for serverless deployments"), s)
  else if metaTruthy d.metadata ("using_spot_instances") then
    (Outcome.alreadyOptimized, s)
  else if spotAvailable = true ∧ spotPrice < onDemandPrice then
    match update_deployment s d.id none none none
        [(("using_spot_instances"), MetaVal.boolV true),
         (("spot_price"), MetaVal.num spotPrice)] prov t1 t2 with
    | (Except.ok _, s1) =>
        (Outcome.converted spotPrice onDemandPrice
          ((onDemandPrice - spotPrice) / onDemandPrice * 100), s1)
    | (Except.error e, s1) => (Outcome.errorOut e, s1)
  else
    (Outcome.notBeneficial, s)

/-- The new quantities `_check_resource_sizing` computes (lines 229–243): a
resource whose utilization is below 30 becomes
`max(floor, current * 0.75)` with floors 0.25 for cpu and 0.5 for memory;
a resource that is not over-provisioned keeps its current value. -/
def sizedRequirements (d : Deployment) (cpuUtil memUtil : ℚ) : ResourceRequirements :=
  let currentCpu := d.resource_requirements.cpu
  let currentMemory := d.resource_requirements.memory
  { cpu := if cpuUtil < 30 then max (1 / 4) (currentCpu * (3 / 4)) else currentCpu
    memory := if memUtil < 30 then max (1 / 2) (currentMemory * (3 / 4)) else currentMemory
    gpu := d.resource_requirements.gpu
    timeout := d.resource_requirements.timeout }

/-- `_check_resource_sizing` (lines 212–283): if either utilization is
below 30, push the shrunk requirements through `update_deployment` (a
driver failure becomes an `error` outcome) and report the new values;
otherwise report `optimal`. -/
def checkResourceSizing (s : Store) (d : Deployment) (cpuUtil memUtil : ℚ)
    (prov : Except String Unit) (t1 t2 : ℤ) : Outcome × Store :=
  if cpuUtil < 30 ∨ memUtil < 30 then
    let newRR := sizedRequirements d cpuUtil memUtil
    match update_deployment s d.id (some newRR) none none [] prov t1 t2 with
    | (Except.ok _, s1) => (Outcome.resized newRR.cpu newRR.memory, s1)
    | (Except.error e, s1) => (Outcome.errorOut e, s1)
  else
    (Outcome.optimal, s)

/-- `_check_multi_cloud_arbitrage` (lines 285–345): read the current
provider from metadata (default `aws`), find the cheapest provider for the
deployment's shape; if it differs from the current one AND its price is
strictly below `0.9 ×` the current provider's price, record the new
provider/region in metadata through `update_deployment` (a driver failure
becomes an `error` outcome) and report the savings; otherwise report
`optimal`. An empty pricing dict or a current provider missing from it
makes the Python raise out of the check (`Except.error`). -/
def checkMultiCloudArbitrage (s : Store) (d : Deployment)
    (pricing : List ProviderQuote) (prov : Except String Unit) (t1 t2 : ℤ) :
    Except String (Outcome × Store) :=
  let currentProvider := metaGetStr d.metadata ("cloud_provider") ("aws")
  match argminQuote pricing, findQuote pricing currentProvider with
  | some cheapest, some currentQ =>
      if cheapest.provider ≠ currentProvider ∧
          cheapest.price < currentQ.price * (9 / 10) then
        match update_deployment s d.id none none none
            [(("cloud_provider"), MetaVal.str cheapest.provider),
             (("cloud_region"), MetaVal.str cheapest.region)] prov t1 t2 with
        | (Except.ok _, s1) =>
            Except.ok (Outcome.migrated cheapest.provider cheapest.region
              ((currentQ.price - cheapest.price) / currentQ.price * 100), s1)
        | (Except.error e, s1) => Except.ok (Outcome.errorOut e, s1)
      else
        Except.ok (Outcome.optimal, s)
  | _, _ => Except.error ("pricing data unavailable")

/-- `check_deployment_arbitrage` in `optimization/multi_cloud.py`
(lines 77–156), the recommendation-only variant: skip a non-active
deployment; if the cheapest provider is the current one report `optimal`;
otherwise compute `savings = (current - cheapest) / current * 100` and
report `arbitrage_opportunity` only when `savings > 10` (strictly), else
`savings_insufficient`. -/
def check_deployment_arbitrage (d : Deployment) (pricing : List ProviderQuote) :
    Except String Outcome :=
  if d.status ≠ DeploymentStatus.active then
    Except.ok (Outcome.skipped ("Deployment is not active"))
  else
    let currentProvider := metaGetStr d.metadata ("cloud_provider") ("aws")
    match argminQuote pricing, findQuote pricing currentProvider with
    | some cheapest, some currentQ =>
        if cheapest.provider = currentProvider then
          Except.ok Outcome.optimal
        else
          let savingsPct := (currentQ.price - cheapest.price) / currentQ.price * 100
          if 10 < savingsPct then
            Except.ok (Outcome.arbitrageOpportunity cheapest.provider cheapest.region savingsPct)
          else
            Except.ok (Outcome.savingsInsufficient savingsPct)
    | _, _ => Except.error ("pricing data unavailable")

/-- The environment one per-deployment optimizer pass reads: the clock, the
placeholder spot prices and utilizations, the pricing table, and the
outcome of each driver call a check may make. -/
structure OptEnv where
  now : ℤ
  hibProv : Except String Unit
  ht1 : ℤ
  ht2 : ℤ
  spotAvailable : Bool
  spotPrice : ℚ
  onDemandPrice : ℚ
  spotProv : Except String Unit
  st1 : ℤ
  st2 : ℤ
  cpuUtil : ℚ
  memUtil : ℚ
  sizeProv : Except String Unit
  zt1 : ℤ
  zt2 : ℤ
  pricing : List ProviderQuote
  arbProv : Except String Unit
  at1 : ℤ
  at2 : ℤ

/-- The per-deployment results dict of `optimize_deployment`: either the
whole pass was skipped for a non-active deployment, or one entry per check
(the arbitrage entry present only when the policy enables it). -/
inductive OptResult
  | skippedPass (st : DeploymentStatus)
  | results (hibernation spot sizing : Outcome) (arbitrage : Option Outcome)
deriving DecidableEq, Repr

/-- `optimize_deployment` (lines 70–116): raise for an unknown id; skip a
non-active deployment; otherwise run the four checks in order against the
same in-memory record, threading the store, the arbitrage check only when
the policy enables it; an exception escaping a check aborts only this
deployment's pass. -/
def optimize_deployment (s : Store) (id : String) (env : OptEnv) :
    Except String OptResult × Store :=
  match storeGet s id with
  | none => (Except.error ("Deployment not found"), s)
  | some d =>
      if d.status ≠ DeploymentStatus.active then
        (Except.ok (OptResult.skippedPass d.status), s)
      else
        let h := checkHibernation s d env.now env.hibProv env.ht1 env.ht2
        let sp := checkSpotInstances h.2 d env.spotAvailable env.spotPrice
          env.onDemandPrice env.spotProv env.st1 env.st2
        let sz := checkResourceSizing sp.2 d env.cpuUtil env.memUtil
          env.sizeProv env.zt1 env.zt2
        if d.cost_optimization_policy.multi_cloud_enabled then
          match checkMultiCloudArbitrage sz.2 d env.pricing env.arbProv env.at1 env.at2 with
          | Except.ok (a, s4) =>
              (Except.ok (OptResult.results h.1 sp.1 sz.1 (some a)), s4)
          | Except.error e => (Except.error e, sz.2)
        else
          (Except.ok (OptResult.results h.1 sp.1 sz.1 none), sz.2)

/-- The loop of `optimize_all_deployments` (lines 60–67): optimize each
listed deployment in turn, catching any exception as that deployment's
`error` entry and continuing with the next. -/
def optimizeList (envf : String → OptEnv) :
    List Deployment → Store → List (String × Except String OptResult) × Store
  | [], s => ([], s)
  | d :: rest, s =>
      let r := optimize_deployment s d.id (envf d.id)
      let rs := optimizeList envf rest r.2
      ((d.id, r.1) :: rs.1, rs.2)

/-- `optimize_all_deployments` (lines 47–68): list every deployment, then
run the per-deployment loop. -/
def optimize_all_deployments (s : Store) (envf : String → OptEnv) :
    List (String × Except String OptResult) × Store :=
  optimizeList envf (s.map (fun p => p.2)) s

/-! ### Storage tiering classifier (`optimization/storage_tiering.py`) -/

/-- One artifact's access record: total access count, last-access
timestamp, and the bounded ring of recent access timestamps (seconds). -/
structure AccessRecord where
  total_accesses : ℕ
  last_access : ℤ
  access_history : List ℤ
deriving DecidableEq, Repr

/-- `(now - t).days` of a Python `timedelta`: floor division of the
second difference by 86400. -/
def daysBetween (now t : ℤ) : ℤ :=
  Int.fdiv (now - t) 86400

/-- The three access patterns the classifier returns. -/
inductive AccessPattern
  | frequent
  | infrequent
  | rare
deriving DecidableEq, Repr

/-- `_get_access_pattern` (lines 238–292): `rare` for a missing record,
zero total accesses, or more than 30 days since the last access;
`infrequent` for more than 7 days since the last access or a history
shorter than 5; `frequent` when at least 10 history timestamps lie within
the last 7 days; `infrequent` otherwise. -/
def getAccessPattern (rec : Option AccessRecord) (now : ℤ) : AccessPattern :=
  match rec with
  | none => AccessPattern.rare
  | some r =>
      if r.total_accesses = 0 then AccessPattern.rare
      else
        let days := daysBetween now r.last_access
        if 30 < days then AccessPattern.rare
        else if 7 < days then AccessPattern.infrequent
        else if r.access_history.length < 5 then AccessPattern.infrequent
        else
          let recentAccesses := r.access_history.countP (fun t => daysBetween now t ≤ 7)
          if 10 ≤ recentAccesses then AccessPattern.frequent
          else AccessPattern.infrequent

/-! ### Store lemmas -/

theorem storeGet_storePut_self (s : Store) (d : Deployment) :
    storeGet (storePut s d) d.id = some d := by
  induction s with
  | nil => simp [storePut, storeGet]
  | cons p rest ih =>
      by_cases h : p.1 = d.id
      · simp [storePut, storeGet, h]
      · simp [storePut, storeGet, h, ih]

theorem storeGet_storePut_ne (s : Store) (d : Deployment) (j : String)
    (h : j ≠ d.id) : storeGet (storePut s d) j = storeGet s j := by
  induction s with
  | nil => simp [storePut, storeGet, Ne.symm h]
  | cons p rest ih =>
      by_cases hp : p.1 = d.id
      · have hpj : p.1 ≠ j := by
          rw [hp]
          exact Ne.symm h
        simp [storePut, storeGet, hp, hpj, Ne.symm h]
      · by_cases hj : p.1 = j
        · simp [storePut, storeGet, hp, hj, h]
        · simp [storePut, storeGet, hp, hj, ih]

/-! ### Shared sample records used by witnesses and counterexamples -/

/-- Sample resource requirements: 2 cpu, 4 Gi memory, no gpu. -/
def sampleRR : ResourceRequirements := ⟨2, 4, none, 300⟩

/-- Sample scaling policy. -/
def sampleSP : ScalingPolicy := ⟨1, 5, 70, 300⟩

/-- Sample cost policy with hibernation and arbitrage enabled. -/
def sampleCOP : CostOptimizationPolicy := ⟨true, true, 1800, true, true⟩

/-- A sample active Kubernetes deployment with an endpoint. -/
def sampleDep : Deployment :=
  ⟨("dep-1"), ("demo"), ("m-1"), DeploymentType.kubernetes, sampleRR, sampleSP,
    sampleCOP, [], DeploymentStatus.active, some ("http://ep"), 0, 0, some 0⟩

/-- The store holding just the sample deployment. -/
def sampleStore : Store := [(sampleDep.id, sampleDep)]

/-- The sample deployment in `pending` status (never activated). -/
def samplePending : Deployment := { sampleDep with status := DeploymentStatus.pending }

/-- The store holding just the pending sample. -/
def samplePendingStore : Store := [(samplePending.id, samplePending)]

/-- A pricing dict sitting exactly at the 10% savings boundary: the current
provider (aws) prices at 10, the cheapest (gcp) at 9 = 0.9 × 10. -/
def boundaryPricing : List ProviderQuote :=
  [⟨("aws"), ("us-east-1"), 10⟩, ⟨("gcp"), ("us-central1"), 9⟩]

/-- C6: the access-pattern classifier returns `rare` for a missing record,
zero total accesses, or more than 30 days since the last access;
`infrequent` for a last access older than 7 days (but within 30) or a
history shorter than 5 entries; `frequent` exactly when at least 10 stored
timestamps fall within the last 7 days (and none of the earlier guards
fired); `infrequent` otherwise. Concretely: zero accesses is `rare`,
12 accesses in the last 2 days is `frequent`, and 4 total accesses with the
last one 3 days ago is `infrequent`. -/
theorem c6_access_pattern_classifier :
    (∀ now, getAccessPattern none now = AccessPattern.rare) ∧
    (∀ r now, getAccessPattern (some r) now = AccessPattern.rare ↔
       r.total_accesses = 0 ∨ 30 < daysBetween now r.last_access) ∧
    (∀ r now, getAccessPattern (some r) now = AccessPattern.frequent ↔
       r.total_accesses ≠ 0 ∧ daysBetween now r.last_access ≤ 7 ∧
       5 ≤ r.access_history.length ∧
       10 ≤ r.access_history.countP (fun t => daysBetween now t ≤ 7)) ∧
    (∀ r now, getAccessPattern (some r) now = AccessPattern.infrequent ↔
       r.total_accesses ≠ 0 ∧ daysBetween now r.last_access ≤ 30 ∧
       (7 < daysBetween now r.last_access ∨ r.access_history.length < 5 ∨
        r.access_history.countP (fun t => daysBetween now t ≤ 7) < 10)) ∧
    getAccessPattern (some ⟨0, 0, []⟩) 8640000 = AccessPattern.rare ∧
    getAccessPattern (some ⟨12, 8640000 - 3600,
      (List.range 12).map (fun i => 8640000 - 86400 - (i : ℤ))⟩) 8640000 =
      AccessPattern.frequent ∧
    getAccessPattern (some ⟨4, 8640000 - 3 * 86400,
      [8640000 - 3 * 86400, 8640000 - 4 * 86400, 8640000 - 5 * 86400,
       8640000 - 6 * 86400]⟩) 8640000 = AccessPattern.infrequent := by
  refine ⟨fun now => rfl, ?_, ?_, ?_, by decide, by decide, by decide⟩
  · intro r now
    simp only [getAccessPattern]
    split_ifs with h1 h2 h3 h4 h5 <;> simp_all
  · intro r now
    simp only [getAccessPattern]
    split_ifs with h1 h2 h3 h4 h5 <;> simp_all
    omega
  · intro r now
    simp only [getAccessPattern]
    split_ifs with h1 h2 h3 h4 h5 <;> simp_all


theorem foldlMin_spec {α : Type} (f : α → ℚ) (l : List α) :
    ∀ b, l.foldl (fun best x => if f x < f best then x else best) b ∈ b :: l ∧
      ∀ x ∈ b :: l,
        f (l.foldl (fun best x => if f x < f best then x else best) b) ≤ f x := by
  induction l with
  | nil =>
      intro b
      simp
  | cons a l ih =>
      intro b
      simp only [List.foldl_cons]
      by_cases hc : f a < f b
      · rw [if_pos hc]
        obtain ⟨hm, hl⟩ := ih a
        refine ⟨List.mem_cons_of_mem b hm, ?_⟩
        intro x hx
        rcases List.mem_cons.mp hx with rfl | hx'
        · exact le_trans (hl a (List.mem_cons_self a l)) (le_of_lt hc)
        · exact hl x hx'
      · rw [if_neg hc]
        obtain ⟨hm, hl⟩ := ih b
        refine ⟨?_, ?_⟩
        · rcases List.mem_cons.mp hm with h | h
          · rw [h]
            exact List.mem_cons_self b _
          · exact List.mem_cons_of_mem b (List.mem_cons_of_mem a h)
        · intro x hx
          rcases List.mem_cons.mp hx with rfl | hx'
          · exact hl x (List.mem_cons_self x l)
          · rcases List.mem_cons.mp hx' with rfl | hx''
            · exact le_trans (hl b (List.mem_cons_self b l)) (not_lt.mp hc)
            · exact hl x (List.mem_cons_of_mem b hx'')

theorem cheapestRegionFold_eq_foldl (sh : ResourceShape) (l : List RegionPrice) :
    ∀ b, cheapestRegionFold sh b l =
      l.foldl (fun best x => if regionTotal sh x < regionTotal sh best then x else best) b := by
  induction l with
  | nil => intro b; rfl
  | cons a l ih => intro b; simp only [cheapestRegionFold, List.foldl_cons, ih]

theorem argminQuote_spec (quotes : List ProviderQuote) (c : ProviderQuote)
    (h : argminQuote quotes = some c) :
    c ∈ quotes ∧ ∀ q ∈ quotes, c.price ≤ q.price := by
  cases quotes with
  | nil => cases h
  | cons q qs =>
      simp only [argminQuote, Option.some_inj] at h
      subst h
      exact foldlMin_spec (fun x => x.price) qs q

/-- C9: each per-provider quote produced by the price tracker is the
minimum of `cpu*cpu_price + memory*memory_price + gpu*gpu_price` over that
provider's regions, achieved by the reported region, and the
cheapest-provider result minimizes that per-provider quote across all
providers. -/
theorem c9_pricing_quote_minimal :
    ∀ (sh : ResourceShape) (tables : List ProviderTable) (quotes : List ProviderQuote),
      getPricingData sh tables = some quotes →
      (∀ q ∈ quotes, ∃ t ∈ tables, t.provider = q.provider ∧
          (∃ rp ∈ t.regions, rp.region = q.region ∧ regionTotal sh rp = q.price) ∧
          ∀ rp ∈ t.regions, q.price ≤ regionTotal sh rp) ∧
      (∀ c, argminQuote quotes = some c →
          c ∈ quotes ∧ ∀ q ∈ quotes, c.price ≤ q.price) := by
  intro sh tables
  induction tables with
  | nil =>
      intro quotes h
      simp only [getPricingData, Option.some_inj] at h
      subst h
      exact ⟨by simp, fun c hc => argminQuote_spec [] c hc⟩
  | cons t ts ih =>
      intro quotes h
      simp only [getPricingData] at h
      cases hcr : cheapestRegion sh t.regions with
      | none => rw [hcr] at h; cases h
      | some rq =>
          cases hrest : getPricingData sh ts with
          | none => rw [hcr, hrest] at h; cases h
          | some rest =>
              rw [hcr, hrest] at h
              simp only [Option.some_inj] at h
              subst h
              refine ⟨?_, fun c hc => argminQuote_spec _ c hc⟩
              intro q hq
              rcases List.mem_cons.mp hq with rfl | hq'
              · cases hreg : t.regions with
                | nil =>
                    rw [hreg] at hcr
                    cases hcr
                | cons rp0 rps =>
                    have heq := cheapestRegionFold_eq_foldl sh rps rp0
                    obtain ⟨hm, hle⟩ := foldlMin_spec (fun x => regionTotal sh x) rps rp0
                    rw [← heq] at hm hle
                    rw [hreg] at hcr
                    simp only [cheapestRegion, Option.some_inj] at hcr
                    refine ⟨t, List.mem_cons_self t ts, rfl, ?_, ?_⟩
                    · refine ⟨cheapestRegionFold sh rp0 rps, ?_, ?_, ?_⟩
                      · rw [hreg]
                        exact hm
                      · rw [← hcr]
                      · rw [← hcr]
                    · intro rp hrp
                      rw [hreg] at hrp
                      rw [← hcr]
                      exact hle rp hrp
              · obtain ⟨t', ht', hprov, hregion, hmin⟩ := (ih rest hrest).1 q hq'
                exact ⟨t', List.mem_cons_of_mem t ht', hprov, hregion, hmin⟩

/-- The initial price table of `_init_price_tracking`
(`optimization/multi_cloud.py`, lines 229–259). -/
def initialPriceTables : List ProviderTable :=
  [⟨("aws"),
     [⟨("us-east-1"), 0.04, 0.01, 0.5⟩,
      ⟨("us-west-1"), 0.045, 0.011, 0.55⟩,
      ⟨("eu-west-1"), 0.042, 0.0105, 0.52⟩]⟩,
   ⟨("gcp"),
     [⟨("us-central1"), 0.035, 0.009, 0.45⟩,
      ⟨("us-west1"), 0.038, 0.0095, 0.48⟩,
      ⟨("europe-west1"), 0.037, 0.0092, 0.47⟩]⟩,
   ⟨("azure"),
     [⟨("eastus"), 0.038, 0.008, 0.48⟩,
      ⟨("westus"), 0.041, 0.0085, 0.51⟩,
      ⟨("westeurope"), 0.04, 0.0082, 0.5⟩]⟩]

/-- The quotes the tracker produces from the initial table for a
2-cpu/4-Gi/no-gpu deployment. -/
def initialQuotes : List ProviderQuote :=
  [⟨("aws"), ("us-east-1"), 3/25⟩,
   ⟨("gcp"), ("us-central1"), 53/500⟩,
   ⟨("azure"), ("eastus"), 27/250⟩]

/-- Witness for C9 on the repository's initial price table: the gcp quote
(region us-central1, price 0.106) is the cheapest for a 2-cpu/4-Gi shape
and undercuts the aws and azure quotes. -/
theorem c9_pricing_quote_minimal_witness :
    getPricingData ⟨2, 4, 0⟩ initialPriceTables = some initialQuotes ∧
    argminQuote initialQuotes = some ⟨("gcp"), ("us-central1"), 53/500⟩ ∧
    (53 : ℚ)/500 ≤ (3 : ℚ)/25 ∧ (53 : ℚ)/500 ≤ (27 : ℚ)/250 := by
  have h : getPricingData ⟨2, 4, 0⟩ initialPriceTables = some initialQuotes := by
    simp [getPricingData, cheapestRegion, cheapestRegionFold, regionTotal,
      initialPriceTables, initialQuotes]
    norm_num
  have hmin : argminQuote initialQuotes = some ⟨("gcp"), ("us-central1"), 53/500⟩ := by
    simp [argminQuote, initialQuotes]
    norm_num
  have hc := (c9_pricing_quote_minimal ⟨2, 4, 0⟩ initialPriceTables initialQuotes h).2
    ⟨("gcp"), ("us-central1"), 53/500⟩ hmin
  refine ⟨h, hmin, ?_, ?_⟩
  · exact hc.2 ⟨("aws"), ("us-east-1"), 3/25⟩ (by simp [initialQuotes])
  · exact hc.2 ⟨("azure"), ("eastus"), 27/250⟩ (by simp [initialQuotes])


/-! ### Behaviour lemmas for the state-machine operations -/

theorem provOutcome_ne_edge (ty : DeploymentType) (prov : Except String Unit)
    (h : ty ≠ DeploymentType.edge) : provOutcome ty prov = prov := by
  cases ty with
  | edge => exact absurd rfl h
  | serverless => rfl
  | kubernetes => rfl

theorem metaGet_metaSet_self (m : Metadata) (k : String) (v : MetaVal) :
    metaGet (metaSet m k v) k = some v := by
  induction m with
  | nil => simp [metaSet, metaGet, List.find?]
  | cons p rest ih =>
      by_cases h : p.1 = k
      · simp [metaSet, metaGet, List.find?, h]
      · simp only [metaSet, if_neg h]
        simp only [metaGet, List.find?] at ih ⊢
        simp [h, ih]

theorem updateMerge_fields (d : Deployment) (rr : Option ResourceRequirements)
    (sp : Option ScalingPolicy) (cop : Option CostOptimizationPolicy)
    (md : Metadata) (t1 : ℤ) :
    (updateMerge d rr sp cop md t1).id = d.id ∧
    (updateMerge d rr sp cop md t1).endpoint = d.endpoint ∧
    (updateMerge d rr sp cop md t1).status = DeploymentStatus.scaling ∧
    (updateMerge d rr sp cop md t1).deployment_type = d.deployment_type ∧
    (updateMerge d rr sp cop md t1).last_active_at = d.last_active_at := by
  simp only [updateMerge]
  cases rr <;> cases sp <;> cases cop <;> by_cases h : md.isEmpty <;> simp [h]

/-- The record `hibernate_deployment` saves before the driver call. -/
def hibRecord (d : Deployment) (t : ℤ) : Deployment :=
  { d with status := DeploymentStatus.hibernated, updated_at := t }

/-- The record `activate_deployment` saves before the driver call. -/
def deployingRecord (d : Deployment) (t : ℤ) : Deployment :=
  { d with status := DeploymentStatus.deploying, updated_at := t }

/-- The record `update_deployment` saves after a successful driver call. -/
def activeRecord (d : Deployment) (t : ℤ) : Deployment :=
  { d with status := DeploymentStatus.active, updated_at := t }

/-- The record `activate_deployment` saves after a successful driver call:
`last_active_at` is refreshed along with `updated_at`. -/
def activatedRecord (d : Deployment) (t : ℤ) : Deployment :=
  { d with status := DeploymentStatus.active, updated_at := t, last_active_at := some t }

theorem hibernate_spec_ok (s : Store) (d : Deployment) (t1 t2 : ℤ)
    (h1 : storeGet s d.id = some d)
    (hflag : d.cost_optimization_policy.hibernation_enabled = true)
    (hty : d.deployment_type ≠ DeploymentType.edge) :
    hibernate_deployment s d.id (Except.ok ()) t1 t2 =
      (Except.ok (some (hibRecord d t1)), storePut s (hibRecord d t1)) := by
  simp [hibernate_deployment, h1, hflag, provOutcome_ne_edge _ _ hty, hibRecord]

theorem hibernate_spec_error (s : Store) (d : Deployment) (e : String) (t1 t2 : ℤ)
    (h1 : storeGet s d.id = some d)
    (hflag : d.cost_optimization_policy.hibernation_enabled = true)
    (hty : d.deployment_type ≠ DeploymentType.edge) :
    hibernate_deployment s d.id (Except.error e) t1 t2 =
      (Except.error e,
       storePut (storePut s (hibRecord d t1)) (failRecord (hibRecord d t1) e t2)) := by
  simp [hibernate_deployment, h1, hflag, provOutcome_ne_edge _ _ hty, hibRecord]

theorem activate_spec_ok (s : Store) (d : Deployment) (t1 t2 : ℤ)
    (h1 : storeGet s d.id = some d)
    (hst : d.status = DeploymentStatus.hibernated)
    (hty : d.deployment_type ≠ DeploymentType.edge) :
    activate_deployment s d.id (Except.ok ()) t1 t2 =
      (Except.ok (some (activatedRecord d t2)),
       storePut (storePut s (deployingRecord d t1)) (activatedRecord d t2)) := by
  simp [activate_deployment, h1, hst, provOutcome_ne_edge _ _ hty,
    deployingRecord, activatedRecord]

theorem update_spec_ok (s : Store) (d : Deployment) (rr : Option ResourceRequirements)
    (sp : Option ScalingPolicy) (cop : Option CostOptimizationPolicy) (md : Metadata)
    (t1 t2 : ℤ) (h1 : storeGet s d.id = some d)
    (hty : d.deployment_type ≠ DeploymentType.edge) :
    update_deployment s d.id rr sp cop md (Except.ok ()) t1 t2 =
      (Except.ok (some (activeRecord (updateMerge d rr sp cop md t1) t2)),
       storePut (storePut s (updateMerge d rr sp cop md t1))
         (activeRecord (updateMerge d rr sp cop md t1) t2)) := by
  have hty2 : (updateMerge d rr sp cop md t1).deployment_type ≠ DeploymentType.edge := by
    rw [(updateMerge_fields d rr sp cop md t1).2.2.2.1]
    exact hty
  simp [update_deployment, h1, provOutcome_ne_edge _ _ hty2, activeRecord]

theorem update_spec_error (s : Store) (d : Deployment)
    (rr : Option ResourceRequirements) (sp : Option ScalingPolicy)
    (cop : Option CostOptimizationPolicy) (md : Metadata) (e : String)
    (t1 t2 : ℤ) (h1 : storeGet s d.id = some d)
    (hty : d.deployment_type ≠ DeploymentType.edge) :
    update_deployment s d.id rr sp cop md (Except.error e) t1 t2 =
      (Except.error e,
       storePut (storePut s (updateMerge d rr sp cop md t1))
         (failRecord (updateMerge d rr sp cop md t1) e t2)) := by
  have hty2 : (updateMerge d rr sp cop md t1).deployment_type ≠ DeploymentType.edge := by
    rw [(updateMerge_fields d rr sp cop md t1).2.2.2.1]
    exact hty
  simp [update_deployment, h1, provOutcome_ne_edge _ _ hty2]

/-- The sample deployment after `hibernate_deployment` at time 5. -/
def sampleHib : Deployment :=
  { sampleDep with status := DeploymentStatus.hibernated, updated_at := 5 }

/-- The pending sample after `hibernate_deployment` at time 5. -/
def samplePendingHib : Deployment :=
  { samplePending with status := DeploymentStatus.hibernated, updated_at := 5 }

/-- The record `deploy_model` persists for an unsupported deployment type. -/
def edgeFailedDeploy (id name model_id : String) (rr : ResourceRequirements)
    (sp : ScalingPolicy) (cop : CostOptimizationPolicy) (md : Metadata)
    (t0 t1 : ℤ) : Deployment :=
  failRecord
    { mkDeployment id name model_id DeploymentType.edge rr sp cop md t0 with
      status := DeploymentStatus.deploying }
    ("Unsupported deployment type") t1

/-! ### C1 -/

/-- C1 (counterexample): hibernating the active sample deployment leaves its
endpoint non-null while the status is `hibernated`, so the claimed
invariant "endpoint is non-null iff status is active" fails right after a
hibernate transition. -/
theorem c1_endpoint_invariant_counterexample :
    (hibernate_deployment sampleStore ("dep-1") (Except.ok ()) 5 6).1 =
      Except.ok (some sampleHib) ∧
    sampleHib.status = DeploymentStatus.hibernated ∧
    sampleHib.endpoint = some ("http://ep") := ⟨rfl, rfl, rfl⟩

/-- C1 (amended): the deploy operation does establish "endpoint non-null iff
status active" on the record it persists, but update, hibernate, activate
and a failed delete never touch the endpoint field, so a deployment moved
to `hibernated` or `scaling` retains its previous (possibly non-null)
endpoint instead of a null one. -/
theorem c1_endpoint_invariant_amended :
    (∀ (s : Store) (id name model_id : String) (ty : DeploymentType)
       (rr : ResourceRequirements) (sp : ScalingPolicy) (cop : CostOptimizationPolicy)
       (md : Metadata) (prov : Except String String) (t0 t1 : ℤ) (dr : Deployment),
       storeGet (deploy_model s id name model_id ty rr sp cop md prov t0 t1).2 id = some dr →
       (dr.endpoint ≠ none ↔ dr.status = DeploymentStatus.active)) ∧
    (∀ (s : Store) (d : Deployment) (rr : Option ResourceRequirements)
       (sp : Option ScalingPolicy) (cop : Option CostOptimizationPolicy)
       (md : Metadata) (prov : Except String Unit) (t1 t2 : ℤ) (dr : Deployment),
       storeGet s d.id = some d →
       storeGet (update_deployment s d.id rr sp cop md prov t1 t2).2 d.id = some dr →
       dr.endpoint = d.endpoint) ∧
    (∀ (s : Store) (d : Deployment) (prov : Except String Unit) (t1 t2 : ℤ)
       (dr : Deployment),
       storeGet s d.id = some d →
       storeGet (hibernate_deployment s d.id prov t1 t2).2 d.id = some dr →
       dr.endpoint = d.endpoint) ∧
    (∀ (s : Store) (d : Deployment) (prov : Except String Unit) (t1 t2 : ℤ)
       (dr : Deployment),
       storeGet s d.id = some d →
       storeGet (activate_deployment s d.id prov t1 t2).2 d.id = some dr →
       dr.endpoint = d.endpoint) ∧
    (∀ (s : Store) (d : Deployment) (prov : Except String Unit) (t2 : ℤ)
       (e : String) (dr : Deployment),
       storeGet s d.id = some d →
       (delete_deployment s d.id prov t2).1 = Except.error e →
       storeGet (delete_deployment s d.id prov t2).2 d.id = some dr →
       dr.endpoint = d.endpoint) := by
  refine ⟨?_, ?_, ?_, ?_, ?_⟩
  · intro s id name model_id ty rr sp cop md prov t0 t1 dr hdr
    simp only [deploy_model] at hdr
    cases hpr : provDeployOutcome ty prov with
    | ok ep =>
        rw [hpr] at hdr
        simp only [mkDeployment] at hdr
        rw [storeGet_storePut_self] at hdr
        cases hdr
        simp
    | error e =>
        rw [hpr] at hdr
        simp only [mkDeployment, failRecord] at hdr
        rw [storeGet_storePut_self] at hdr
        cases hdr
        simp
  · intro s d rr sp cop md prov t1 t2 dr h1 hdr
    have hfields := updateMerge_fields d rr sp cop md t1
    simp only [update_deployment, h1] at hdr
    generalize hu : updateMerge d rr sp cop md t1 = u at hdr hfields
    obtain ⟨hid, hep, -, -, -⟩ := hfields
    rw [← hid] at hdr
    cases hpr : provOutcome u.deployment_type prov with
    | ok v =>
        rw [hpr] at hdr
        simp only at hdr
        rw [storeGet_storePut_self] at hdr
        cases hdr
        simpa using hep
    | error e =>
        rw [hpr] at hdr
        simp only [failRecord] at hdr
        rw [storeGet_storePut_self] at hdr
        cases hdr
        simpa using hep
  · intro s d prov t1 t2 dr h1 hdr
    simp only [hibernate_deployment, h1] at hdr
    by_cases hflag : d.cost_optimization_policy.hibernation_enabled = false
    · rw [if_pos hflag] at hdr
      rw [h1] at hdr
      cases hdr
      rfl
    · rw [if_neg hflag] at hdr
      cases hpr : provOutcome d.deployment_type prov with
      | ok v =>
          rw [hpr] at hdr
          simp only at hdr
          rw [storeGet_storePut_self] at hdr
          cases hdr
          rfl
      | error e =>
          rw [hpr] at hdr
          simp only [failRecord] at hdr
          rw [storeGet_storePut_self] at hdr
          cases hdr
          rfl
  · intro s d prov t1 t2 dr h1 hdr
    simp only [activate_deployment, h1] at hdr
    by_cases hst : d.status ≠ DeploymentStatus.hibernated
    · rw [if_pos hst] at hdr
      rw [h1] at hdr
      cases hdr
      rfl
    · rw [if_neg hst] at hdr
      cases hpr : provOutcome d.deployment_type prov with
      | ok v =>
          rw [hpr] at hdr
          simp only at hdr
          rw [storeGet_storePut_self] at hdr
          cases hdr
          rfl
      | error e =>
          rw [hpr] at hdr
          simp only [failRecord] at hdr
          rw [storeGet_storePut_self] at hdr
          cases hdr
          rfl
  · intro s d prov t2 e dr h1 herr hdr
    simp only [delete_deployment, h1] at hdr herr
    cases hpr : provOutcome d.deployment_type prov with
    | ok v =>
        rw [hpr] at herr
        simp only at herr
        cases herr
    | error e2 =>
        rw [hpr] at hdr
        simp only [failRecord] at hdr
        rw [storeGet_storePut_self] at hdr
        cases hdr
        rfl

/-- Witness for C1: the hibernate-preservation part applied to the sample
store shows the hibernated record keeps the endpoint the active record had. -/
theorem c1_endpoint_invariant_witness :
    sampleHib.endpoint = sampleDep.endpoint ∧ sampleDep.endpoint = some ("http://ep") :=
  ⟨c1_endpoint_invariant_amended.2.2.1 sampleStore sampleDep (Except.ok ()) 5 6
    sampleHib rfl rfl, rfl⟩

/-! ### C3 -/

/-- C3 (counterexample): the sample deployment in `pending` status (hence
not active) with the hibernation flag enabled is nonetheless moved to
`hibernated` by `hibernate_deployment`, so "no-op when status is not
active" fails — the code only checks the policy flag. -/
theorem c3_hibernate_guard_counterexample :
    (hibernate_deployment samplePendingStore ("dep-1") (Except.ok ()) 5 6).1 =
      Except.ok (some samplePendingHib) ∧
    samplePending.status = DeploymentStatus.pending ∧
    samplePendingHib.status = DeploymentStatus.hibernated ∧
    samplePending.cost_optimization_policy.hibernation_enabled = true :=
  ⟨rfl, rfl, rfl, rfl⟩

/-- C3 (amended): for an existing record, `hibernate(id)` is a no-op
returning the record unchanged exactly when the cost policy's hibernation
flag is false; when the flag is true it moves the deployment to
`hibernated` and invokes the driver's hibernate call regardless of the
current status (there is no active-status check). -/
theorem c3_hibernate_guard_amended :
    ∀ (s : Store) (d : Deployment) (prov : Except String Unit) (t1 t2 : ℤ),
      storeGet s d.id = some d →
      (d.cost_optimization_policy.hibernation_enabled = false →
        hibernate_deployment s d.id prov t1 t2 = (Except.ok (some d), s)) ∧
      (d.cost_optimization_policy.hibernation_enabled = true →
        d.deployment_type ≠ DeploymentType.edge → prov = Except.ok () →
        hibernate_deployment s d.id prov t1 t2 =
          (Except.ok (some (hibRecord d t1)), storePut s (hibRecord d t1)) ∧
        (hibRecord d t1).status = DeploymentStatus.hibernated ∧
        (hibRecord d t1).resource_requirements = d.resource_requirements ∧
        (hibRecord d t1).scaling_policy = d.scaling_policy ∧
        (hibRecord d t1).last_active_at = d.last_active_at) := by
  intro s d prov t1 t2 h1
  constructor
  · intro hflag
    simp [hibernate_deployment, h1, hflag]
  · intro hflag hty hprov
    subst hprov
    exact ⟨hibernate_spec_ok s d t1 t2 h1 hflag hty, rfl, rfl, rfl, rfl⟩

/-- Witness for C3: applied to the pending sample, hibernation proceeds
(flag enabled) even though the status is `pending`. -/
theorem c3_hibernate_guard_witness :
    hibernate_deployment samplePendingStore samplePending.id (Except.ok ()) 5 6 =
      (Except.ok (some (hibRecord samplePending 5)),
       storePut samplePendingStore (hibRecord samplePending 5)) :=
  ((c3_hibernate_guard_amended samplePendingStore samplePending (Except.ok ()) 5 6
    rfl).2 rfl (by decide) rfl).1

/-! ### C4 -/

/-- C4 (counterexample): deploying with the unsupported `edge` type into an
empty store does mutate state — a record is created and persisted in
`failed` status — contradicting "rejected before any state mutation". -/
theorem c4_unsupported_type_counterexample :
    (deploy_model [] ("dep-2") ("n") ("m") DeploymentType.edge sampleRR sampleSP
        sampleCOP [] (Except.ok ("http://e")) 0 1).2 ≠ ([] : Store) ∧
    storeGet (deploy_model [] ("dep-2") ("n") ("m") DeploymentType.edge sampleRR
        sampleSP sampleCOP [] (Except.ok ("http://e")) 0 1).2 ("dep-2") =
      some (edgeFailedDeploy ("dep-2") ("n") ("m") sampleRR sampleSP sampleCOP [] 0 1) ∧
    (edgeFailedDeploy ("dep-2") ("n") ("m") sampleRR sampleSP sampleCOP [] 0 1).status =
      DeploymentStatus.failed := by
  refine ⟨?_, rfl, rfl⟩
  intro h
  simp [deploy_model, provDeployOutcome, mkDeployment, failRecord, storePut] at h

/-- C4 (amended): a deploy request with an unsupported deployment type fails
with an error and leaves every other record untouched, but it does create
and persist the new record: first in `deploying` status, then re-persisted
as `failed` with the error captured in metadata and a null endpoint. -/
theorem c4_unsupported_type_amended :
    ∀ (s : Store) (id name model_id : String) (rr : ResourceRequirements)
      (sp : ScalingPolicy) (cop : CostOptimizationPolicy) (md : Metadata)
      (prov : Except String String) (t0 t1 : ℤ),
      (deploy_model s id name model_id DeploymentType.edge rr sp cop md prov t0 t1).1 =
        Except.error ("Unsupported deployment type") ∧
      storeGet
          (deploy_model s id name model_id DeploymentType.edge rr sp cop md prov t0 t1).2
          id = some (edgeFailedDeploy id name model_id rr sp cop md t0 t1) ∧
      (edgeFailedDeploy id name model_id rr sp cop md t0 t1).status =
        DeploymentStatus.failed ∧
      (edgeFailedDeploy id name model_id rr sp cop md t0 t1).endpoint = none ∧
      metaGet (edgeFailedDeploy id name model_id rr sp cop md t0 t1).metadata ("error") =
        some (MetaVal.str ("Unsupported deployment type")) ∧
      (∀ j, j ≠ id →
        storeGet
          (deploy_model s id name model_id DeploymentType.edge rr sp cop md prov t0 t1).2
          j = storeGet s j) := by
  intro s id name model_id rr sp cop md prov t0 t1
  refine ⟨rfl, ?_, rfl, rfl, metaGet_metaSet_self _ _ _, ?_⟩
  · simp only [deploy_model, provDeployOutcome, mkDeployment, failRecord,
      edgeFailedDeploy]
    rw [storeGet_storePut_self]
  · intro j hj
    simp only [deploy_model, provDeployOutcome, mkDeployment, failRecord]
    rw [storeGet_storePut_ne _ _ _ hj, storeGet_storePut_ne _ _ _ hj]

/-- Witness for C4: the concrete edge deploy errors out while a record under
a different id stays absent. -/
theorem c4_unsupported_type_witness :
    (deploy_model [] ("dep-2") ("n") ("m") DeploymentType.edge sampleRR sampleSP
        sampleCOP [] (Except.ok ("http://e")) 0 1).1 =
      Except.error ("Unsupported deployment type") ∧
    storeGet (deploy_model [] ("dep-2") ("n") ("m") DeploymentType.edge sampleRR
        sampleSP sampleCOP [] (Except.ok ("http://e")) 0 1).2 ("other") = none := by
  have h := c4_unsupported_type_amended [] ("dep-2") ("n") ("m") sampleRR sampleSP
    sampleCOP [] (Except.ok ("http://e")) 0 1
  exact ⟨h.1, by rw [h.2.2.2.2.2 ("other") (by decide)]; rfl⟩

/-! ### C5 -/

/-- C5: hibernating an active deployment (hibernation enabled) and then
activating it yields a record whose resource requirements and scaling
policy equal their pre-hibernation values, whose status is `active` again,
and whose `last_active_at` is the activation time — strictly greater than
the pre-hibernation value whenever the clock advanced. -/
theorem c5_hibernate_activate_roundtrip :
    ∀ (s : Store) (d : Deployment) (t0 th1 th2 ta1 ta2 : ℤ),
      storeGet s d.id = some d →
      d.status = DeploymentStatus.active →
      d.cost_optimization_policy.hibernation_enabled = true →
      d.deployment_type ≠ DeploymentType.edge →
      d.last_active_at = some t0 →
      t0 < ta2 →
      (activate_deployment (hibernate_deployment s d.id (Except.ok ()) th1 th2).2
          d.id (Except.ok ()) ta1 ta2).1 =
        Except.ok (some (activatedRecord (hibRecord d th1) ta2)) ∧
      (activatedRecord (hibRecord d th1) ta2).resource_requirements =
        d.resource_requirements ∧
      (activatedRecord (hibRecord d th1) ta2).scaling_policy = d.scaling_policy ∧
      (activatedRecord (hibRecord d th1) ta2).status = DeploymentStatus.active ∧
      (activatedRecord (hibRecord d th1) ta2).last_active_at = some ta2 ∧
      t0 < ta2 := by
  intro s d t0 th1 th2 ta1 ta2 h1 hst hflag hty hla hlt
  rw [hibernate_spec_ok s d th1 th2 h1 hflag hty]
  have h2 : storeGet (storePut s (hibRecord d th1)) (hibRecord d th1).id =
      some (hibRecord d th1) := storeGet_storePut_self s (hibRecord d th1)
  have h3 := activate_spec_ok (storePut s (hibRecord d th1)) (hibRecord d th1)
    ta1 ta2 h2 rfl hty
  rw [show (hibRecord d th1).id = d.id from rfl] at h3
  rw [h3]
  exact ⟨rfl, rfl, rfl, rfl, rfl, hlt⟩

/-- Witness for C5 on the sample deployment: hibernate at time 5, activate
at time 20; requirements come back identical and `last_active_at` moves
from 0 to 20. -/
theorem c5_hibernate_activate_roundtrip_witness :
    (activate_deployment (hibernate_deployment sampleStore sampleDep.id
        (Except.ok ()) 5 6).2 sampleDep.id (Except.ok ()) 10 20).1 =
      Except.ok (some (activatedRecord (hibRecord sampleDep 5) 20)) ∧
    (activatedRecord (hibRecord sampleDep 5) 20).resource_requirements = sampleRR ∧
    (activatedRecord (hibRecord sampleDep 5) 20).last_active_at = some 20 ∧
    (0 : ℤ) < 20 := by
  have h := c5_hibernate_activate_roundtrip sampleStore sampleDep 0 5 6 10 20
    rfl rfl rfl (by decide) rfl (by decide)
  exact ⟨h.1, h.2.1, h.2.2.2.2.1, h.2.2.2.2.2⟩


theorem metaGet_metaSet_ne (m : Metadata) (k j : String) (v : MetaVal)
    (h : j ≠ k) : metaGet (metaSet m k v) j = metaGet m j := by
  induction m with
  | nil => simp [metaSet, metaGet, List.find?, Ne.symm h]
  | cons p rest ih =>
      by_cases hp : p.1 = k
      · have hpj : p.1 ≠ j := by
          rw [hp]
          exact Ne.symm h
        simp [metaSet, metaGet, List.find?, hp, hpj, Ne.symm h]
      · by_cases hj : p.1 = j
        · simp [metaSet, metaGet, List.find?, hp, hj, h, Ne.symm h]
        · simp only [metaSet, if_neg hp]
          simp only [metaGet, List.find?] at ih ⊢
          simp [hp, hj, ih]

/-- The metadata dict the arbitrage check passes to `update_deployment`. -/
def arbMetadata (cheapest : ProviderQuote) : Metadata :=
  [(("cloud_provider"), MetaVal.str cheapest.provider),
   (("cloud_region"), MetaVal.str cheapest.region)]

/-- C2 (amended): for an active deployment with arbitrage enabled, the
arbitrage check migrates the recorded provider if and only if the cheapest
provider differs from the current one and `cheapest_price < 0.9 ×
current_price` STRICTLY; at exactly `cheapest_price = 0.9 × current_price`
it does not migrate and reports `optimal`. The strict `savings > 10`
comparison of the `multi_cloud.py` variant is equivalent to the same strict
price comparison, so both code paths agree on the boundary. -/
theorem c2_arbitrage_boundary_amended :
    ∀ (s : Store) (d : Deployment) (pricing : List ProviderQuote)
      (cheapest currentQ : ProviderQuote) (t1 t2 : ℤ),
      storeGet s d.id = some d →
      d.deployment_type ≠ DeploymentType.edge →
      argminQuote pricing = some cheapest →
      findQuote pricing (metaGetStr d.metadata ("cloud_provider") ("aws")) = some currentQ →
      0 < currentQ.price →
      ((cheapest.provider ≠ metaGetStr d.metadata ("cloud_provider") ("aws") ∧
          cheapest.price < currentQ.price * (9 / 10)) →
        checkMultiCloudArbitrage s d pricing (Except.ok ()) t1 t2 =
          Except.ok (Outcome.migrated cheapest.provider cheapest.region
              ((currentQ.price - cheapest.price) / currentQ.price * 100),
            storePut (storePut s (updateMerge d none none none (arbMetadata cheapest) t1))
              (activeRecord (updateMerge d none none none (arbMetadata cheapest) t1) t2)) ∧
        metaGetStr (activeRecord (updateMerge d none none none (arbMetadata cheapest) t1)
            t2).metadata ("cloud_provider") ("aws") = cheapest.provider) ∧
      (¬(cheapest.provider ≠ metaGetStr d.metadata ("cloud_provider") ("aws") ∧
          cheapest.price < currentQ.price * (9 / 10)) →
        checkMultiCloudArbitrage s d pricing (Except.ok ()) t1 t2 =
          Except.ok (Outcome.optimal, s)) ∧
      (cheapest.price = currentQ.price * (9 / 10) →
        checkMultiCloudArbitrage s d pricing (Except.ok ()) t1 t2 =
          Except.ok (Outcome.optimal, s)) ∧
      (10 < (currentQ.price - cheapest.price) / currentQ.price * 100 ↔
        cheapest.price < currentQ.price * (9 / 10)) ∧
      (d.status = DeploymentStatus.active →
        cheapest.provider ≠ metaGetStr d.metadata ("cloud_provider") ("aws") →
        (10 < (currentQ.price - cheapest.price) / currentQ.price * 100 →
          check_deployment_arbitrage d pricing =
            Except.ok (Outcome.arbitrageOpportunity cheapest.provider cheapest.region
              ((currentQ.price - cheapest.price) / currentQ.price * 100))) ∧
        ((currentQ.price - cheapest.price) / currentQ.price * 100 ≤ 10 →
          check_deployment_arbitrage d pricing =
            Except.ok (Outcome.savingsInsufficient
              ((currentQ.price - cheapest.price) / currentQ.price * 100)))) := by
  intro s d pricing cheapest currentQ t1 t2 h1 hty hargmin hfind hpos
  have hiff : 10 < (currentQ.price - cheapest.price) / currentQ.price * 100 ↔
      cheapest.price < currentQ.price * (9 / 10) := by
    rw [show (currentQ.price - cheapest.price) / currentQ.price * 100 =
      (currentQ.price - cheapest.price) * 100 / currentQ.price from by ring,
      lt_div_iff₀ hpos]
    constructor
    · intro h
      nlinarith
    · intro h
      nlinarith
  refine ⟨?_, ?_, ?_, hiff, ?_⟩
  · intro hcond
    simp only [checkMultiCloudArbitrage, hargmin, hfind]
    rw [if_pos hcond]
    rw [update_spec_ok s d none none none
      [(("cloud_provider"), MetaVal.str cheapest.provider),
       (("cloud_region"), MetaVal.str cheapest.region)] t1 t2 h1 hty]
    refine ⟨rfl, ?_⟩
    show metaGetStr (updateMerge d none none none (arbMetadata cheapest) t1).metadata
      ("cloud_provider") ("aws") = cheapest.provider
    have hmd : (updateMerge d none none none (arbMetadata cheapest) t1).metadata =
        metaSet (metaSet d.metadata ("cloud_provider") (MetaVal.str cheapest.provider))
          ("cloud_region") (MetaVal.str cheapest.region) := rfl
    rw [hmd]
    unfold metaGetStr
    rw [metaGet_metaSet_ne _ _ _ _ (by decide), metaGet_metaSet_self]
  · intro hcond
    simp only [checkMultiCloudArbitrage, hargmin, hfind]
    rw [if_neg hcond]
  · intro hb
    simp only [checkMultiCloudArbitrage, hargmin, hfind]
    rw [if_neg]
    intro hcond
    rw [hb] at hcond
    exact absurd hcond.2 (lt_irrefl _)
  · intro hst hne
    have hstn : ¬d.status ≠ DeploymentStatus.active := by simp [hst]
    constructor
    · intro hgt
      simp only [check_deployment_arbitrage, hargmin, hfind]
      rw [if_neg hstn, if_neg hne, if_pos hgt]
    · intro hle
      simp only [check_deployment_arbitrage, hargmin, hfind]
      rw [if_neg hstn, if_neg hne, if_neg (not_lt.mpr hle)]



/-- C2 (counterexample): at exactly the 10% boundary (current provider aws
at 10, cheapest gcp at 9 = 0.9 × 10) the arbitrage check does NOT migrate:
it reports `optimal` and leaves the store untouched, contradicting the
claim that it migrates at the boundary. -/
theorem c2_arbitrage_boundary_counterexample :
    checkMultiCloudArbitrage sampleStore sampleDep boundaryPricing (Except.ok ()) 5 6 =
      Except.ok (Outcome.optimal, sampleStore) ∧
    argminQuote boundaryPricing = some ⟨("gcp"), ("us-central1"), 9⟩ ∧
    findQuote boundaryPricing ("aws") = some ⟨("aws"), ("us-east-1"), 10⟩ ∧
    (9 : ℚ) = 10 * (9 / 10) ∧
    sampleDep.cost_optimization_policy.multi_cloud_enabled = true ∧
    sampleDep.status = DeploymentStatus.active := by
  have hargmin : argminQuote boundaryPricing = some ⟨("gcp"), ("us-central1"), 9⟩ := by
    simp only [argminQuote, boundaryPricing, List.foldl]
    rw [if_pos (by norm_num : (9 : ℚ) < 10)]
  have hcur : metaGetStr sampleDep.metadata ("cloud_provider") ("aws") = ("aws") := rfl
  have hfind : findQuote boundaryPricing ("aws") = some ⟨("aws"), ("us-east-1"), 10⟩ := rfl
  refine ⟨?_, hargmin, hfind, by norm_num, rfl, rfl⟩
  simp only [checkMultiCloudArbitrage, hcur, hargmin, hfind]
  rw [if_neg]
  rintro ⟨-, h2⟩
  norm_num at h2

/-- A pricing dict with a 20% saving available (aws at 10, gcp at 8). -/
def cheapPricing : List ProviderQuote :=
  [⟨("aws"), ("us-east-1"), 10⟩, ⟨("gcp"), ("us-central1"), 8⟩]

/-- Witness for C2: with gcp at 8 against aws at 10 (a 20% saving, strictly
below 0.9 × 10) the check migrates and records gcp in the metadata. -/
theorem c2_arbitrage_boundary_witness :
    checkMultiCloudArbitrage sampleStore sampleDep cheapPricing (Except.ok ()) 5 6 =
      Except.ok (Outcome.migrated ("gcp") ("us-central1") ((10 - 8) / 10 * 100),
        storePut (storePut sampleStore (updateMerge sampleDep none none none
            (arbMetadata ⟨("gcp"), ("us-central1"), 8⟩) 5))
          (activeRecord (updateMerge sampleDep none none none
            (arbMetadata ⟨("gcp"), ("us-central1"), 8⟩) 5) 6)) ∧
    metaGetStr (activeRecord (updateMerge sampleDep none none none
        (arbMetadata ⟨("gcp"), ("us-central1"), 8⟩) 5) 6).metadata
      ("cloud_provider") ("aws") = ("gcp") := by
  have hargmin : argminQuote cheapPricing = some ⟨("gcp"), ("us-central1"), 8⟩ := by
    simp only [argminQuote, cheapPricing, List.foldl]
    rw [if_pos (by norm_num : (8 : ℚ) < 10)]
  have h := (c2_arbitrage_boundary_amended sampleStore sampleDep cheapPricing ⟨("gcp"), ("us-central1"), 8⟩
    ⟨("aws"), ("us-east-1"), 10⟩ 5 6 rfl (by decide) hargmin rfl (by norm_num)).1
    ⟨by decide, by norm_num⟩
  exact h

/-- C7 (amended): a resource whose utilization is below 30% is resized to
`max(floor, 0.75 × current)` — 0.25 for cpu, 0.5 for memory — hence never
below the floor even at utilization 0; but a resource that is NOT
over-provisioned is passed through at its current value, which the issued
update re-submits even when that value is already below the floor. -/
theorem c7_sizing_floor_amended :
    ∀ (s : Store) (d : Deployment) (cpuUtil memUtil : ℚ) (t1 t2 : ℤ),
      storeGet s d.id = some d →
      d.deployment_type ≠ DeploymentType.edge →
      (cpuUtil < 30 →
        (sizedRequirements d cpuUtil memUtil).cpu =
          max (1 / 4) (d.resource_requirements.cpu * (3 / 4)) ∧
        (1 / 4 : ℚ) ≤ (sizedRequirements d cpuUtil memUtil).cpu) ∧
      (¬cpuUtil < 30 →
        (sizedRequirements d cpuUtil memUtil).cpu = d.resource_requirements.cpu) ∧
      (memUtil < 30 →
        (sizedRequirements d cpuUtil memUtil).memory =
          max (1 / 2) (d.resource_requirements.memory * (3 / 4)) ∧
        (1 / 2 : ℚ) ≤ (sizedRequirements d cpuUtil memUtil).memory) ∧
      (¬memUtil < 30 →
        (sizedRequirements d cpuUtil memUtil).memory = d.resource_requirements.memory) ∧
      (cpuUtil < 30 ∨ memUtil < 30 →
        checkResourceSizing s d cpuUtil memUtil (Except.ok ()) t1 t2 =
          (Outcome.resized (sizedRequirements d cpuUtil memUtil).cpu
              (sizedRequirements d cpuUtil memUtil).memory,
           storePut (storePut s (updateMerge d
               (some (sizedRequirements d cpuUtil memUtil)) none none [] t1))
             (activeRecord (updateMerge d
               (some (sizedRequirements d cpuUtil memUtil)) none none [] t1) t2)) ∧
        (activeRecord (updateMerge d (some (sizedRequirements d cpuUtil memUtil))
            none none [] t1) t2).resource_requirements =
          sizedRequirements d cpuUtil memUtil) ∧
      (¬(cpuUtil < 30 ∨ memUtil < 30) →
        checkResourceSizing s d cpuUtil memUtil (Except.ok ()) t1 t2 =
          (Outcome.optimal, s)) := by
  intro s d cpuUtil memUtil t1 t2 h1 hty
  refine ⟨?_, ?_, ?_, ?_, ?_, ?_⟩
  · intro h
    simp only [sizedRequirements]
    rw [if_pos h]
    exact ⟨rfl, le_max_left _ _⟩
  · intro h
    simp only [sizedRequirements]
    rw [if_neg h]
  · intro h
    simp only [sizedRequirements]
    rw [if_pos h]
    exact ⟨rfl, le_max_left _ _⟩
  · intro h
    simp only [sizedRequirements]
    rw [if_neg h]
  · intro h
    constructor
    · simp only [checkResourceSizing]
      rw [if_pos h]
      rw [update_spec_ok s d (some (sizedRequirements d cpuUtil memUtil)) none none
        [] t1 t2 h1 hty]
    · rfl
  · intro h
    simp only [checkResourceSizing]
    rw [if_neg h]

/-- The sample deployment with cpu already below the 0.25 floor. -/
def sampleLowCpu : Deployment :=
  { sampleDep with resource_requirements := ⟨1/10, 4, none, 300⟩ }

/-- The store holding just the low-cpu sample. -/
def sampleLowCpuStore : Store := [(sampleLowCpu.id, sampleLowCpu)]

/-- C7 (counterexample): a deployment with cpu 0.1 and memory 4, cpu
utilization 50% and memory utilization 10%, is resized; the update the check
issues re-submits cpu = 0.1, which is below the claimed 0.25 floor, so "the
check never sets the requested cpu below 0.25" fails as stated. -/
theorem c7_sizing_floor_counterexample :
    (checkResourceSizing sampleLowCpuStore sampleLowCpu 50 10 (Except.ok ()) 5 6).1 =
      Outcome.resized (1/10) 3 ∧
    storeGet (checkResourceSizing sampleLowCpuStore sampleLowCpu 50 10
        (Except.ok ()) 5 6).2 ("dep-1") =
      some (activeRecord (updateMerge sampleLowCpu
        (some (sizedRequirements sampleLowCpu 50 10)) none none [] 5) 6) ∧
    (activeRecord (updateMerge sampleLowCpu
        (some (sizedRequirements sampleLowCpu 50 10)) none none [] 5)
      6).resource_requirements.cpu = 1/10 ∧
    ((1 : ℚ)/10 < 1/4) := by
  have hcpu : (sizedRequirements sampleLowCpu 50 10).cpu = 1/10 := by
    simp only [sizedRequirements]
    rw [if_neg (by norm_num : ¬(50 : ℚ) < 30)]
    rfl
  have hmem : (sizedRequirements sampleLowCpu 50 10).memory = 3 := by
    simp only [sizedRequirements]
    rw [if_pos (by norm_num : (10 : ℚ) < 30)]
    show max ((1 : ℚ)/2) ((4 : ℚ) * (3/4)) = 3
    rw [show ((4 : ℚ) * (3/4)) = 3 from by norm_num,
      max_eq_right (by norm_num : ((1 : ℚ)/2) ≤ 3)]
  have hck : checkResourceSizing sampleLowCpuStore sampleLowCpu 50 10
      (Except.ok ()) 5 6 =
      (Outcome.resized (sizedRequirements sampleLowCpu 50 10).cpu
          (sizedRequirements sampleLowCpu 50 10).memory,
       storePut (storePut sampleLowCpuStore (updateMerge sampleLowCpu
           (some (sizedRequirements sampleLowCpu 50 10)) none none [] 5))
         (activeRecord (updateMerge sampleLowCpu
           (some (sizedRequirements sampleLowCpu 50 10)) none none [] 5) 6)) := by
    simp only [checkResourceSizing]
    rw [if_pos (Or.inr (by norm_num : (10 : ℚ) < 30))]
    rw [update_spec_ok sampleLowCpuStore sampleLowCpu
      (some (sizedRequirements sampleLowCpu 50 10)) none none [] 5 6 rfl (by decide)]
  refine ⟨?_, ?_, ?_, by norm_num⟩
  · rw [hck, hcpu, hmem]
  · rw [hck]
    exact storeGet_storePut_self _ _
  · exact hcpu

/-- Witness for C7: at utilization 0 for both resources, the sample
deployment's new cpu is `max(0.25, 0.75 × 2)` and both new quantities stay
at or above their floors. -/
theorem c7_sizing_floor_witness :
    (sizedRequirements sampleDep 0 0).cpu =
      max (1 / 4) (sampleDep.resource_requirements.cpu * (3 / 4)) ∧
    (1 / 4 : ℚ) ≤ (sizedRequirements sampleDep 0 0).cpu ∧
    (1 / 2 : ℚ) ≤ (sizedRequirements sampleDep 0 0).memory := by
  have h := c7_sizing_floor_amended sampleStore sampleDep 0 0 5 6 rfl (by decide)
  exact ⟨(h.1 (by norm_num)).1, (h.1 (by norm_num)).2, (h.2.2.1 (by norm_num)).2⟩



theorem optimizeList_ids (envf : String → OptEnv) (ds : List Deployment) :
    ∀ s : Store, (optimizeList envf ds s).1.map Prod.fst = ds.map Deployment.id := by
  induction ds with
  | nil => intro s; rfl
  | cons d rest ih =>
      intro s
      simp only [optimizeList, List.map_cons]
      rw [ih]

/-- The metadata dict the spot-conversion check passes to `update_deployment`. -/
def spotMetadata (p : ℚ) : Metadata :=
  [(("using_spot_instances"), MetaVal.boolV true), (("spot_price"), MetaVal.num p)]

/-- C10: an update that provides only a metadata map still moves the record
to `scaling` (all other configuration untouched, metadata dict-merged),
invokes the driver's update, and ends `active` on success or `failed` on
failure; hence the spot-conversion check, which only sets metadata flags,
drives this full transition and leaves the deployment `failed` when the
driver call fails. -/
theorem c10_metadata_update_scaling :
    ∀ (s : Store) (d : Deployment) (md : Metadata) (t1 t2 : ℤ),
      storeGet s d.id = some d →
      md ≠ [] →
      d.deployment_type ≠ DeploymentType.edge →
      ((updateMerge d none none none md t1).status = DeploymentStatus.scaling ∧
       (updateMerge d none none none md t1).resource_requirements =
         d.resource_requirements ∧
       (updateMerge d none none none md t1).scaling_policy = d.scaling_policy ∧
       (updateMerge d none none none md t1).cost_optimization_policy =
         d.cost_optimization_policy ∧
       (updateMerge d none none none md t1).metadata = metaUpdate d.metadata md) ∧
      (update_deployment s d.id none none none md (Except.ok ()) t1 t2 =
        (Except.ok (some (activeRecord (updateMerge d none none none md t1) t2)),
         storePut (storePut s (updateMerge d none none none md t1))
           (activeRecord (updateMerge d none none none md t1) t2)) ∧
       (activeRecord (updateMerge d none none none md t1) t2).status =
         DeploymentStatus.active) ∧
      (∀ e, update_deployment s d.id none none none md (Except.error e) t1 t2 =
        (Except.error e, storePut (storePut s (updateMerge d none none none md t1))
          (failRecord (updateMerge d none none none md t1) e t2)) ∧
        (failRecord (updateMerge d none none none md t1) e t2).status =
          DeploymentStatus.failed) ∧
      (d.cost_optimization_policy.use_spot_instances = true →
        d.deployment_type = DeploymentType.kubernetes →
        metaTruthy d.metadata ("using_spot_instances") = false →
        ∀ (e : String) (spotPrice onDemandPrice : ℚ), spotPrice < onDemandPrice →
          checkSpotInstances s d true spotPrice onDemandPrice (Except.error e) t1 t2 =
            (Outcome.errorOut e,
             storePut (storePut s (updateMerge d none none none
                 (spotMetadata spotPrice) t1))
               (failRecord (updateMerge d none none none
                 (spotMetadata spotPrice) t1) e t2))) := by
  intro s d md t1 t2 h1 hmd hty
  refine ⟨?_, ?_, ?_, ?_⟩
  · cases md with
    | nil => exact absurd rfl hmd
    | cons x xs => exact ⟨rfl, rfl, rfl, rfl, rfl⟩
  · exact ⟨update_spec_ok s d none none none md t1 t2 h1 hty, rfl⟩
  · intro e
    exact ⟨update_spec_error s d none none none md e t1 t2 h1 hty, rfl⟩
  · intro hsf hk hmt e spotPrice onDemandPrice hsp
    have hnsf : ¬(d.cost_optimization_policy.use_spot_instances = false) := by
      simp [hsf]
    have hnsv : ¬(d.deployment_type = DeploymentType.serverless) := by
      rw [hk]
      intro hcon
      cases hcon
    simp only [checkSpotInstances]
    rw [if_neg hnsf, if_neg hnsv]
    rw [show metaTruthy d.metadata ("using_spot_instances") = false from hmt]
    simp only [Bool.false_eq_true, if_false]
    rw [if_pos ⟨trivial, hsp⟩]
    rw [update_spec_error s d none none none
      [(("using_spot_instances"), MetaVal.boolV true),
       (("spot_price"), MetaVal.num spotPrice)] e t1 t2 h1 hty]
    rfl

/-- C8: the batch pass gives every listed deployment exactly one outcome
entry in order, regardless of per-deployment errors; and within one
deployment's pass a provisioner failure in the hibernation check is
recorded as an `error` outcome while the spot and sizing checks still run
on the threaded store. -/
theorem c8_batch_error_isolation :
    (∀ (s : Store) (envf : String → OptEnv),
      (optimize_all_deployments s envf).1.map Prod.fst =
        (s.map (fun p => p.2)).map Deployment.id) ∧
    (∀ (s : Store) (d : Deployment) (env : OptEnv) (e : String),
      storeGet s d.id = some d →
      d.status = DeploymentStatus.active →
      d.cost_optimization_policy.hibernation_enabled = true →
      d.cost_optimization_policy.hibernation_idle_timeout <
        env.now - (d.last_active_at.getD d.created_at) →
      env.hibProv = Except.error e →
      d.deployment_type ≠ DeploymentType.edge →
      d.cost_optimization_policy.multi_cloud_enabled = false →
      (checkHibernation s d env.now env.hibProv env.ht1 env.ht2).1 =
        Outcome.errorOut e ∧
      optimize_deployment s d.id env =
        (Except.ok (OptResult.results
          (Outcome.errorOut e)
          (checkSpotInstances (checkHibernation s d env.now env.hibProv
              env.ht1 env.ht2).2
            d env.spotAvailable env.spotPrice env.onDemandPrice env.spotProv
            env.st1 env.st2).1
          (checkResourceSizing
            (checkSpotInstances (checkHibernation s d env.now env.hibProv
                env.ht1 env.ht2).2
              d env.spotAvailable env.spotPrice env.onDemandPrice env.spotProv
              env.st1 env.st2).2
            d env.cpuUtil env.memUtil env.sizeProv env.zt1 env.zt2).1
          none),
         (checkResourceSizing
            (checkSpotInstances (checkHibernation s d env.now env.hibProv
                env.ht1 env.ht2).2
              d env.spotAvailable env.spotPrice env.onDemandPrice env.spotProv
              env.st1 env.st2).2
            d env.cpuUtil env.memUtil env.sizeProv env.zt1 env.zt2).2)) := by
  constructor
  · intro s envf
    exact optimizeList_ids envf (s.map (fun p => p.2)) s
  · intro s d env e h1 hst hflag hidle henv hty hmc
    have hhib : (checkHibernation s d env.now env.hibProv env.ht1 env.ht2) =
        (Outcome.errorOut e,
         storePut (storePut s (hibRecord d env.ht1))
           (failRecord (hibRecord d env.ht1) e env.ht2)) := by
      have hnf : ¬(d.cost_optimization_policy.hibernation_enabled = false) := by
        simp [hflag]
      simp only [checkHibernation]
      rw [if_neg hnf, if_pos hidle, henv]
      rw [hibernate_spec_error s d e env.ht1 env.ht2 h1 hflag hty]
    have hnst : ¬(d.status ≠ DeploymentStatus.active) := by simp [hst]
    constructor
    · rw [hhib]
    · simp only [optimize_deployment, h1]
      rw [if_neg hnst]
      rw [show d.cost_optimization_policy.multi_cloud_enabled = false from hmc]
      simp only [Bool.false_eq_true, if_false]
      rw [show (checkHibernation s d env.now env.hibProv env.ht1 env.ht2).1 =
        Outcome.errorOut e from by rw [hhib]]



/-- Witness for C10: the spot check on the sample deployment with a failing
driver call reaches the `error` outcome after moving the record through
`scaling` into `failed`. -/
theorem c10_metadata_update_scaling_witness :
    checkSpotInstances sampleStore sampleDep true 5 10 (Except.error ("boom")) 5 6 =
      (Outcome.errorOut ("boom"),
       storePut (storePut sampleStore (updateMerge sampleDep none none none
           (spotMetadata 5) 5))
         (failRecord (updateMerge sampleDep none none none (spotMetadata 5) 5)
           ("boom") 6)) ∧
    (updateMerge sampleDep none none none (spotMetadata 5) 5).status =
      DeploymentStatus.scaling := by
  have h := c10_metadata_update_scaling sampleStore sampleDep (spotMetadata 5) 5 6 rfl
    (by simp [spotMetadata]) (by decide)
  exact ⟨h.2.2.2 rfl rfl rfl ("boom") 5 10 (by norm_num), h.1.1⟩

/-- The sample deployment, idle past the 1800s hibernation timeout, with
arbitrage disabled. -/
def sampleIdleDep : Deployment :=
  { sampleDep with cost_optimization_policy := ⟨true, true, 1800, false, true⟩ }

/-- The store holding just the idle sample. -/
def sampleIdleStore : Store := [(sampleIdleDep.id, sampleIdleDep)]

/-- An optimizer environment at time 4000 whose hibernate driver call
fails. -/
def sampleErrEnv : OptEnv :=
  ⟨4000, Except.error ("boom"), 5, 6, false, 0, 0, Except.ok (), 7, 8, 50, 50,
    Except.ok (), 9, 10, [], Except.ok (), 11, 12⟩

/-- Witness for C8: the idle sample with a failing hibernate driver still
yields its single batch entry, and the hibernation check reports the error
outcome. -/
theorem c8_batch_error_isolation_witness :
    (optimize_all_deployments sampleIdleStore (fun _ => sampleErrEnv)).1.map
      Prod.fst = [("dep-1")] ∧
    (checkHibernation sampleIdleStore sampleIdleDep sampleErrEnv.now
        sampleErrEnv.hibProv sampleErrEnv.ht1 sampleErrEnv.ht2).1 =
      Outcome.errorOut ("boom") := by
  have h := c8_batch_error_isolation.2 sampleIdleStore sampleIdleDep sampleErrEnv ("boom") rfl rfl rfl
    (by decide) rfl (by decide) rfl
  exact ⟨(c8_batch_error_isolation.1 sampleIdleStore (fun _ => sampleErrEnv)).trans rfl, h.1⟩


end AIDeploy
